import Mathlib

/-!
Verification of the text-inverter web application
(src/reversestring-GEZT/script.js) against its specification.

Strings are modelled at the JavaScript level: a string is its sequence of
UTF-16 code units, embedded as a list of natural numbers (each element
below 2^16; the bound is irrelevant to the properties proved here and is
left implicit). The interaction layer and the theme logic are embedded as
explicit state-passing functions over small state records.
-/

namespace TextInverter

/-- A JavaScript string, viewed as its sequence of UTF-16 code units. -/
abbrev JSString := List Nat

/-- Model of the split operation with empty separator (str.split with the
empty string): the list of one-code-unit substrings. -/
def splitChars (s : JSString) : List JSString :=
  s.map (fun u => [u])

/-- Model of the join operation with empty separator (arr.join with the
empty string): concatenation of a list of strings. -/
def joinStrings (l : List JSString) : JSString :=
  l.flatten

/-- The function reverseString from script.js lines 170-173:
split into characters, reverse the array, join back. -/
def reverseString (s : JSString) : JSString :=
  joinStrings (splitChars s).reverse

/-- UTF-16 encoding of a Unicode scalar value: one code unit for BMP
scalars, a surrogate pair otherwise. -/
def utf16Encode (c : Nat) : List Nat :=
  if c < 0x10000 then [c]
  else [0xD800 + (c - 0x10000) / 0x400, 0xDC00 + (c - 0x10000) % 0x400]

/-- The code-unit sequence of a Lean string literal, used to express the
concrete test vectors from the spec. -/
def codeUnits (s : String) : JSString :=
  (s.data.map (fun c => utf16Encode c.toNat)).flatten

/-- Whether a code unit is a high (leading) surrogate. -/
def isHighSurrogate (u : Nat) : Bool :=
  0xD800 ≤ u && u ≤ 0xDBFF

/-- Whether a code unit is a low (trailing) surrogate. -/
def isLowSurrogate (u : Nat) : Bool :=
  0xDC00 ≤ u && u ≤ 0xDFFF

/-- Whether a code-unit sequence is well-formed UTF-16: every high
surrogate is immediately followed by a low surrogate, and every low
surrogate is part of such a pair. -/
def wellFormedUtf16 : JSString → Bool
  | [] => true
  | u :: rest =>
    if isHighSurrogate u then
      match rest with
      | [] => false
      | v :: rest2 => isLowSurrogate v && wellFormedUtf16 rest2
    else
      !isLowSurrogate u && wellFormedUtf16 rest

/-- The ECMAScript whitespace and line-terminator code units recognised by
the trim method of strings. -/
def isJsWhitespace (u : Nat) : Bool :=
  u = 0x09 || u = 0x0A || u = 0x0B || u = 0x0C || u = 0x0D || u = 0x20 ||
  u = 0xA0 || u = 0x1680 || (0x2000 ≤ u && u ≤ 0x200A) ||
  u = 0x2028 || u = 0x2029 || u = 0x202F || u = 0x205F || u = 0x3000 ||
  u = 0xFEFF

/-- Model of the trim method of strings: removes whitespace from both ends
of the string. -/
def jsTrim (s : JSString) : JSString :=
  ((s.dropWhile isJsWhitespace).reverse.dropWhile isJsWhitespace).reverse

/-- A user-facing notification: its text and its category (the second
argument of showMessage in script.js). -/
structure Message where
  text : String
  kind : String

/-- The interaction-layer state visible to invertText: the input field and
the result field, each a JavaScript string. -/
structure AppState where
  input : JSString
  result : JSString

/-- The outcome of one invertText call: the updated field state, the
notification shown, and whether the Reversal Engine was invoked. -/
structure InvertOutcome where
  state : AppState
  message : Message
  engineInvoked : Bool

/-- The method invertText from script.js lines 130-163: trim the input; if
the trimmed text is empty (falsy), show a warning and return without
touching the result field; otherwise write the reversal of the trimmed
text to the result field and show a success message. The artificial
setTimeout delay is cosmetic and modelled synchronously. -/
def invertText (st : AppState) : InvertOutcome :=
  let text := jsTrim st.input
  if text.isEmpty then
    { state := st
      message := { text := "Por favor, ingresa algún texto para invertir.",
                   kind := "warning" }
      engineInvoked := false }
  else
    { state := { st with result := reverseString text }
      message := { text := "¡Texto invertido correctamente!",
                   kind := "success" }
      engineInvoked := true }

/-- JavaScript truthiness test for a nullable string: null and the empty
string are falsy. -/
def isFalsyStr : Option String → Bool
  | none => true
  | some s => s = ""

/-- The JavaScript or-else idiom (v || d) over a nullable string: null and
the empty string fall through to the default. -/
def jsOrString (v : Option String) (d : String) : String :=
  if isFalsyStr v then d else v.getD d

/-- The theme-related environment state: the persisted theme-preference
entry of localStorage, and the data-theme attribute of the document (none
when the attribute is absent). -/
structure ThemeState where
  store : Option String
  docTheme : Option String

/-- The method applyTheme from script.js lines 103-112: sets the
data-theme attribute on the document (the aria-label and meta-color
updates are cosmetic and carry no state the claims mention). -/
def applyTheme (st : ThemeState) (theme : String) : ThemeState :=
  { st with docTheme := some theme }

/-- The method initializeTheme from script.js lines 78-84: resolve the
saved preference, falling back to the ambient system signal, and apply
it. -/
def initializeTheme (st : ThemeState) (systemPrefersDark : Bool) : ThemeState :=
  applyTheme st
    (jsOrString st.store (if systemPrefersDark then "dark" else "light"))

/-- The method toggleTheme from script.js lines 89-97: flip the current
document theme (absent attribute reads as light), apply the new theme and
persist it. -/
def toggleTheme (st : ThemeState) : ThemeState :=
  let currentTheme := jsOrString st.docTheme "light"
  let newTheme := if currentTheme = "light" then "dark" else "light"
  let st1 := applyTheme st newTheme
  { st1 with store := some newTheme }

/-- The prefers-color-scheme change handler from script.js lines 67-71:
when no preference is stored, apply the theme matching the new system
signal; otherwise do nothing. -/
def systemThemeChange (st : ThemeState) (m : Bool) : ThemeState :=
  if isFalsyStr st.store then
    applyTheme st (if m then "dark" else "light")
  else st

/-- Theme states reachable from a fresh environment (nothing stored, no
attribute on the document) by the three theme operations of the app. -/
inductive ReachableTheme : ThemeState → Prop
  | initial : ReachableTheme { store := none, docTheme := none }
  | initTheme (st : ThemeState) (sys : Bool) :
      ReachableTheme st → ReachableTheme (initializeTheme st sys)
  | toggle (st : ThemeState) :
      ReachableTheme st → ReachableTheme (toggleTheme st)
  | mediaChange (st : ThemeState) (m : Bool) :
      ReachableTheme st → ReachableTheme (systemThemeChange st m)

/-- The two-valued theme invariant: the persisted preference, when present,
is light or dark, and the document attribute, once set, is light or
dark. -/
def themeInv (st : ThemeState) : Prop :=
  (st.store = none ∨ st.store = some "light" ∨ st.store = some "dark") ∧
  (st.docTheme = none ∨ st.docTheme = some "light" ∨
    st.docTheme = some "dark")

/-- The function reverseString computes the exact reversal of the
code-unit list. -/
theorem reverseString_eq_reverse (s : JSString) :
    reverseString s = s.reverse := by
  simp [reverseString, joinStrings, splitChars, ← List.map_reverse]
  induction s.reverse with
  | nil => rfl
  | cons a l ih => simp [ih]

/-- Dropping a prefix by a predicate leaves a head that fails the
predicate. -/
theorem head?_dropWhile_not (p : Nat → Bool) (l : List Nat) :
    ∀ u, (l.dropWhile p).head? = some u → p u = false := by
  induction l with
  | nil => simp [List.dropWhile]
  | cons a l ih =>
    intro u hu
    rw [List.dropWhile_cons] at hu
    by_cases h : p a
    · rw [if_pos h] at hu
      exact ih u hu
    · rw [if_neg h] at hu
      simp at hu
      rw [← hu]
      simpa using h

/-- Dropping a prefix by a predicate preserves the last element when the
result is nonempty. -/
theorem getLast?_dropWhile (p : Nat → Bool) (l : List Nat)
    (h : l.dropWhile p ≠ []) :
    (l.dropWhile p).getLast? = l.getLast? := by
  induction l with
  | nil => simp at h
  | cons a l ih =>
    rw [List.dropWhile_cons] at h ⊢
    by_cases hp : p a
    · rw [if_pos hp] at h ⊢
      cases l with
      | nil => simp [List.dropWhile] at h
      | cons b l2 =>
        rw [ih h]
        exact List.getLast?_cons_cons.symm
    · rw [if_neg hp]

/-- Trimming an all-whitespace string yields the empty string. -/
theorem jsTrim_eq_nil_of_all_ws (s : JSString)
    (h : ∀ u ∈ s, isJsWhitespace u = true) : jsTrim s = [] := by
  have h1 : s.dropWhile isJsWhitespace = [] :=
    List.dropWhile_eq_nil_iff.mpr h
  simp [jsTrim, h1, List.dropWhile]

/-- The head of a trimmed string is never whitespace. -/
theorem jsTrim_head_not_ws (s : JSString) (u : Nat)
    (h : (jsTrim s).head? = some u) : isJsWhitespace u = false := by
  unfold jsTrim at h
  rw [List.head?_reverse] at h
  have hne : (s.dropWhile isJsWhitespace).reverse.dropWhile isJsWhitespace
      ≠ [] := by
    intro e
    rw [e] at h
    simp at h
  rw [getLast?_dropWhile _ _ hne, List.getLast?_reverse] at h
  exact head?_dropWhile_not _ _ u h

/-- Applying a light-or-dark theme preserves the two-valued invariant on
the store and establishes it on the document. -/
theorem themeInv_applyTheme (st : ThemeState) (t : String)
    (hs : st.store = none ∨ st.store = some "light" ∨ st.store = some "dark")
    (ht : t = "light" ∨ t = "dark") : themeInv (applyTheme st t) := by
  refine ⟨hs, ?_⟩
  rcases ht with h | h <;> simp [applyTheme, h]

/-- The last element of a trimmed string is never whitespace. -/
theorem jsTrim_getLast_not_ws (s : JSString) (u : Nat)
    (h : (jsTrim s).getLast? = some u) : isJsWhitespace u = false := by
  unfold jsTrim at h
  rw [List.getLast?_reverse] at h
  exact head?_dropWhile_not _ _ u h

end TextInverter

namespace TextInverter

/-- C1: for every string s and valid code-unit index i, the output r of
reverseString satisfies r[i] == s[len(s)-1-i]. -/
theorem claim_C1_reverse_index (s : JSString) (i : Nat) (h : i < s.length) :
    (reverseString s).get ⟨i, by simpa [reverseString_eq_reverse] using h⟩ =
      s.get ⟨s.length - 1 - i, by omega⟩ := by
  simp [reverseString_eq_reverse, List.get_eq_getElem, List.getElem_reverse]

/-- Witness for C1 at s = [1, 2, 3] and i = 0. -/
theorem claim_C1_witness :
    (reverseString [1, 2, 3]).get ⟨0, by decide⟩ =
      [1, 2, 3].get ⟨3 - 1 - 0, by decide⟩ :=
  claim_C1_reverse_index [1, 2, 3] 0 (by decide)

/-- C2: reverseString is an involution. -/
theorem claim_C2_involution (s : JSString) :
    reverseString (reverseString s) = s := by
  simp [reverseString_eq_reverse]

/-- C3: the output of reverseString has the same length as the input and is
a permutation of it — specifically the exact reversal. -/
theorem claim_C3_length_perm (s : JSString) :
    (reverseString s).length = s.length ∧
      (reverseString s).Perm s ∧ reverseString s = s.reverse := by
  refine ⟨?_, ?_, reverseString_eq_reverse s⟩ <;>
    simp [reverseString_eq_reverse, List.reverse_perm]

/-- C4: reverseString works on raw UTF-16 code units: it is the exact
code-unit reversal, and on the surrogate pair 0xD83D 0xDE00 (U+1F600) it
produces an ill-formed sequence, splitting the character. -/
theorem claim_C4_code_units :
    (∀ s : JSString, reverseString s = s.reverse) ∧
      wellFormedUtf16 [0xD83D, 0xDE00] = true ∧
      reverseString [0xD83D, 0xDE00] = [0xDE00, 0xD83D] ∧
      wellFormedUtf16 (reverseString [0xD83D, 0xDE00]) = false :=
  ⟨reverseString_eq_reverse, by decide, by decide, by decide⟩

/-- C5: on empty or whitespace-only input, invertText shows a warning, does
not invoke the Reversal Engine, and leaves the state (in particular the
result field) unchanged. -/
theorem claim_C5_whitespace_warning (st : AppState)
    (h : ∀ u ∈ st.input, isJsWhitespace u = true) :
    (invertText st).message.kind = "warning" ∧
      (invertText st).engineInvoked = false ∧
      (invertText st).state.result = st.result ∧
      (invertText st).state = st := by
  have ht : jsTrim st.input = [] := jsTrim_eq_nil_of_all_ws _ h
  simp [invertText, ht]

/-- Witness for C5 at a whitespace-only input (space, tab). -/
theorem claim_C5_witness :
    (invertText { input := [0x20, 0x09], result := [5] }).message.kind
        = "warning" ∧
      (invertText { input := [0x20, 0x09], result := [5] }).engineInvoked
        = false ∧
      (invertText { input := [0x20, 0x09], result := [5] }).state.result
        = [5] ∧
      (invertText { input := [0x20, 0x09], result := [5] }).state
        = { input := [0x20, 0x09], result := [5] } :=
  claim_C5_whitespace_warning { input := [0x20, 0x09], result := [5] }
    (by decide)

/-- C6: reverseString is total — in this embedding it is the total function
computing the list reversal — and the defensive error branch of invertText
is unreachable: every call ends in a warning or a success notification,
never the error one. -/
theorem claim_C6_total_no_error :
    (∀ s : JSString, reverseString s = s.reverse) ∧
      (∀ st : AppState, (invertText st).message.kind = "warning" ∨
        (invertText st).message.kind = "success") := by
  refine ⟨reverseString_eq_reverse, fun st => ?_⟩
  unfold invertText
  by_cases h : (jsTrim st.input).isEmpty
  · simp [h]
  · simp [h]

/-- C7: persisting a theme via toggleTheme and re-reading it in a fresh
session via initializeTheme applies exactly the stored value; with nothing
stored, initializeTheme resolves the theme from the ambient dark-mode
signal. -/
theorem claim_C7_roundtrip (st : ThemeState) (sys : Bool) :
    (∀ t, (toggleTheme st).store = some t →
        (initializeTheme { store := some t, docTheme := none } sys).docTheme
          = some t) ∧
      (initializeTheme { store := none, docTheme := none } sys).docTheme
        = some (if sys then "dark" else "light") := by
  constructor
  · intro t htoggle
    have ht : t = "dark" ∨ t = "light" := by
      simp [toggleTheme, applyTheme] at htoggle
      by_cases h : jsOrString st.docTheme "light" = "light"
      · simp [h] at htoggle
        exact Or.inl htoggle.symm
      · simp [h] at htoggle
        exact Or.inr htoggle.symm
    rcases ht with h | h <;>
      simp [h, initializeTheme, applyTheme, jsOrString, isFalsyStr]
  · simp [initializeTheme, applyTheme, jsOrString, isFalsyStr]

/-- Witness for C7: toggling from a fresh document stores dark, and a fresh
session with dark stored resolves dark. -/
theorem claim_C7_witness :
    (initializeTheme { store := some "dark", docTheme := none }
        false).docTheme = some "dark" :=
  (claim_C7_roundtrip { store := none, docTheme := none } false).1 "dark"
    (by simp [toggleTheme, applyTheme, jsOrString, isFalsyStr])

/-- C8: the concrete test vectors hold — reversal of the empty string, of a
single element, of hello, and of the palindrome 12321. -/
theorem claim_C8_test_vectors :
    reverseString (codeUnits "") = codeUnits "" ∧
      reverseString (codeUnits "a") = codeUnits "a" ∧
      reverseString (codeUnits "hello") = codeUnits "olleh" ∧
      reverseString (codeUnits "12321") = codeUnits "12321" :=
  ⟨rfl, rfl, rfl, rfl⟩

/-- C9: whenever invertText proceeds (the trimmed input is nonempty), the
result field receives reverseString applied to the trimmed input, so the
result never starts or ends with whitespace. -/
theorem claim_C9_trimmed_input (st : AppState)
    (h : jsTrim st.input ≠ []) :
    (invertText st).state.result = reverseString (jsTrim st.input) ∧
      (∀ u, ((invertText st).state.result).head? = some u →
        isJsWhitespace u = false) ∧
      (∀ u, ((invertText st).state.result).getLast? = some u →
        isJsWhitespace u = false) := by
  have he : (jsTrim st.input).isEmpty = false := by
    simpa [List.isEmpty_iff] using h
  have hres : (invertText st).state.result = reverseString (jsTrim st.input) := by
    simp [invertText, he]
  refine ⟨hres, fun u hu => ?_, fun u hu => ?_⟩
  · rw [hres, reverseString_eq_reverse, List.head?_reverse] at hu
    exact jsTrim_getLast_not_ws _ u hu
  · rw [hres, reverseString_eq_reverse, List.getLast?_reverse] at hu
    exact jsTrim_head_not_ws _ u hu

/-- Witness for C9 at input space-a-space. -/
theorem claim_C9_witness :
    (invertText { input := [0x20, 0x61, 0x20], result := [] }).state.result = reverseString (jsTrim [0x20, 0x61, 0x20]) ∧
      (∀ u, ((invertText { input := [0x20, 0x61, 0x20], result := [] }).state.result).head? = some u → isJsWhitespace u = false) ∧
      (∀ u, ((invertText { input := [0x20, 0x61, 0x20], result := [] }).state.result).getLast? = some u → isJsWhitespace u = false) :=
  claim_C9_trimmed_input { input := [0x20, 0x61, 0x20], result := [] }
    (by decide)

/-- C10: in every reachable theme state the stored preference and the
applied document theme are confined to light and dark, and toggleTheme is
the only operation that writes the persisted preference. -/
theorem claim_C10_two_valued (st : ThemeState) (h : ReachableTheme st) :
    themeInv st ∧
      (∀ sys, (initializeTheme st sys).store = st.store) ∧
      (∀ m, (systemThemeChange st m).store = st.store) := by
  refine ⟨?_, fun sys => rfl, fun m => ?_⟩
  · induction h with
    | initial => exact ⟨Or.inl rfl, Or.inl rfl⟩
    | initTheme st sys _ ih =>
      obtain ⟨hs, _⟩ := ih
      refine themeInv_applyTheme st _ hs ?_
      rcases hs with h1 | h1 | h1 <;> cases sys <;>
        simp [jsOrString, isFalsyStr, h1]
    | toggle st _ ih =>
      obtain ⟨hs, _⟩ := ih
      by_cases hc : jsOrString st.docTheme "light" = "light" <;>
        simp only [toggleTheme, applyTheme, hc, if_pos, if_neg,
          ite_true, ite_false, if_true, if_false] <;>
        exact ⟨Or.inr (by simp), Or.inr (by simp)⟩
    | mediaChange st m _ ih =>
      obtain ⟨hs, hd⟩ := ih
      unfold systemThemeChange
      by_cases hf : isFalsyStr st.store
      · rw [if_pos hf]
        exact themeInv_applyTheme st _ hs (by cases m <;> simp)
      · rw [if_neg hf]
        exact ⟨hs, hd⟩
  · unfold systemThemeChange applyTheme
    split <;> rfl

/-- Witness for C10 at the initial fresh state. -/
theorem claim_C10_witness :
    themeInv { store := none, docTheme := none } ∧
      (∀ sys, (initializeTheme { store := none, docTheme := none }
        sys).store = none) ∧
      (∀ m, (systemThemeChange { store := none, docTheme := none }
        m).store = none) :=
  claim_C10_two_valued { store := none, docTheme := none }
    ReachableTheme.initial

end TextInverter
